import Mathlib

/-!
Verification of the pair-localization engine (`Locator.py`).

The program resolves a best-available anatomical label for each electrode
contact pair by walking a prioritized chain of annotation sources, and then
answers boolean region-membership queries over the resolved labels.  The
definitions below are a shallow embedding of that code: table cells that may
hold Python non-string values (NaN, None, numbers) are modelled by `Cell`,
Python's `str.strip`/`str.lower` by `pyStrip`/`pyLower`, and the silent
`try/except` around whole-brain co-localization by explicit abort branches
that return the locations accumulated so far.
-/

namespace Locator

/-- A cell of the pairs table: a Python string, or any non-string value
(NaN, None, a number, ...), which `SetIfValid` rejects. -/
inductive Cell where
  | str (s : String)
  | nonstr
deriving DecidableEq

/-- Python `str.strip` on the underlying character list: drop leading
whitespace, then drop trailing whitespace. -/
def stripChars (l : List Char) : List Char :=
  List.rdropWhile Char.isWhitespace (l.dropWhile Char.isWhitespace)

/-- Python `s.strip()`. -/
def pyStrip (s : String) : String :=
  String.mk (stripChars s.data)

/-- Python `s.lower()`. -/
def pyLower (s : String) : String :=
  String.mk (s.data.map Char.toLower)

/-- The "no information" sentinels of `SetIfValid`:
`['unknown', 'misc', 'None', 'nan', '']`. -/
def sentinelList : List String := ["unknown", "misc", "None", "nan", ""]

/-- Split a character list at every occurrence of the separator `c`
(Python `str.split` with an explicit one-character separator; the empty
string yields `[""]`). -/
def splitOnChar (c : Char) : List Char → List (List Char)
  | [] => [[]]
  | x :: xs =>
    if x = c then [] :: splitOnChar c xs
    else
      match splitOnChar c xs with
      | [] => [[x]]
      | h :: t => (x :: h) :: t

/-- Python `lbl.split('-')` as used on pair labels. -/
def pySplit (s : String) (c : Char) : List String :=
  (splitOnChar c s.data).map String.mk

/-- The pairs table handed back by `reader.load('pairs')`: `n` rows, an
association list of named columns (each a row-indexed cell function), and
the `label` column together with its own length (the code re-checks
`len(labels) == chan_cnt` before co-localization). -/
structure PairsTable where
  n : Nat
  cols : List (String × (Nat → Cell))
  labelLen : Nat
  label : Nat → Cell

/-- `SetIfValid(reg, ri)`: ignore non-strings; strip; ignore sentinel
values; otherwise store the stripped string at `ri`. -/
def setIfValid (locs : List (Option String)) (reg : Cell) (ri : Nat) :
    List (Option String) :=
  match reg with
  | Cell.nonstr => locs
  | Cell.str s =>
    if pyStrip s ∈ sentinelList then locs else locs.set ri (some (pyStrip s))

/-- The row loop of `UpdateLocations`: for each row index still holding
`None`, try `SetIfValid` on that row's cell of the column. -/
def updateColumn (vals : Nat → Cell) :
    List Nat → List (Option String) → List (Option String)
  | [], locs => locs
  | ri :: rest, locs =>
    if (locs.getD ri none).isSome then updateColumn vals rest locs
    else updateColumn vals rest (setIfValid locs (vals ri) ri)

/-- `UpdateLocations(regionlabel)`: a no-op when the column is absent,
otherwise the row loop over `range(chan_cnt)`. -/
def updateLocations (pairs : PairsTable) (col : String)
    (locs : List (Option String)) : List (Option String) :=
  match pairs.cols.lookup col with
  | none => locs
  | some vals => updateColumn vals (List.range pairs.n) locs

/-- Key lookup in the whole-brain map (`whbr[k]`, guarded by
`k in whbr.keys()`). -/
def lookupW (whbr : List (String × String)) (k : String) : Option String :=
  whbr.lookup k

/-- The co-localization row loop inside the `try` block.  Branches that
return `locs` without recursing model an exception (`AttributeError` on a
non-string label, `IndexError` on `spl[1]` when the label has no `-` but
`spl[0]` is a key) caught by the bare `except`: the loop stops, keeping
every assignment already made. -/
def colocAux (whbr : List (String × String)) (labels : Nat → Cell) :
    List Nat → List (Option String) → List (Option String)
  | [], locs => locs
  | ri :: rest, locs =>
    if (locs.getD ri none).isSome then colocAux whbr labels rest locs
    else
      match labels ri with
      | Cell.nonstr => locs
      | Cell.str lbl =>
        match lookupW whbr ((pySplit lbl '-').headD "") with
        | none => colocAux whbr labels rest locs
        | some ra =>
          match (pySplit lbl '-').get? 1 with
          | none => locs
          | some b =>
            match lookupW whbr b with
            | none => colocAux whbr labels rest locs
            | some rb =>
              if ra = rb then
                colocAux whbr labels rest (setIfValid locs (Cell.str ra) ri)
              else colocAux whbr labels rest locs

/-- The whole co-localization step: `loc? = none` models a failure to load
the localization structure or to reach `contacts → atlases.whole_brain`
(an exception before the loop), the length guard models the explicit
`raise IndexError('label mismatch')`; both leave `locs` untouched. -/
def colocStep (pairs : PairsTable) (loc? : Option (List (String × String)))
    (locs : List (Option String)) : List (Option String) :=
  match loc? with
  | none => locs
  | some whbr =>
    if pairs.labelLen = pairs.n then
      colocAux whbr pairs.label (List.range pairs.n) locs
    else locs

/-- `Locator.__LoadLocations`: all-`None` start, the five prioritized
sources in order, then the defensive final re-strip. -/
def loadLocations (pairs : PairsTable)
    (loc? : Option (List (String × String))) : List (Option String) :=
  let locs0 := List.replicate pairs.n (none : Option String)
  let locs1 := updateLocations pairs "stein.region" locs0
  let locs2 := updateLocations pairs "das.region" locs1
  let locs3 := colocStep pairs loc? locs2
  let locs4 := updateLocations pairs "mni.region" locs3
  let locs5 := updateLocations pairs "ind.region" locs4
  locs5.map (fun s => Option.map pyStrip s)

/-- `Locator.All`: a fresh copy of the cached locations list. -/
def All (locs : List (Option String)) : List (Option String) :=
  locs.map (fun s => s)

/-- The `regions` argument of `Matching`: a single string or a list of
strings (the code wraps a bare string into a one-element list). -/
inductive StrOrList where
  | str (s : String)
  | list (l : List String)

/-- The list `Matching` actually iterates over after the string-wrap. -/
def argToList : StrOrList → List String
  | StrOrList.str s => [s]
  | StrOrList.list l => l

/-- The body of `Locator.Matching` after the string-wrap: normalize every
alias by `lower().strip()`, then test each resolved location (likewise
normalized) for exact membership; `None` locations give `false`. -/
def matchingList (locs : List (Option String)) (regions : List String) :
    List Bool :=
  let valid := regions.map (fun s => pyStrip (pyLower s))
  locs.map (fun o =>
    match o with
    | some s => valid.contains (pyStrip (pyLower s))
    | none => false)

/-- `Locator.Matching`. -/
def Matching (locs : List (Option String)) (arg : StrOrList) : List Bool :=
  matchingList locs (argToList arg)

/-- `Locator.Regions`: `None` selects everything; otherwise extend the
alias list with its `'Left '`- and `'Right '`-prefixed copies and match. -/
def RegionsF (locs : List (Option String)) : Option StrOrList → List Bool
  | none => locs.map (fun _ => true)
  | some arg =>
    let regions := argToList arg
    let bothsides := regions ++ regions.map (fun s => "Left " ++ s)
      ++ regions.map (fun s => "Right " ++ s)
    Matching locs (StrOrList.list bothsides)

/-- `Locator.LeftRegions`. -/
def LeftRegionsF (locs : List (Option String)) (arg : StrOrList) : List Bool :=
  Matching locs (StrOrList.list ((argToList arg).map (fun s => "Left " ++ s)))

/-- `Locator.RightRegions`. -/
def RightRegionsF (locs : List (Option String)) (arg : StrOrList) : List Bool :=
  Matching locs (StrOrList.list ((argToList arg).map (fun s => "Right " ++ s)))

/-- `self.hippocampus_regions`. -/
def hippocampus_regions : List String :=
  ["CA1", "CA2", "CA3", "CA4", "Hippocampal", "Hippocampus", "Sub",
   "DG", "ba35", "ba35", "\"dg\"", "\"ca1\"", "\"sub\"", "\"ba35\"", "\"ba35\""]

/-- `self.mtl_regions` (spreads `hippocampus_regions`). -/
def mtl_regions : List String :=
  hippocampus_regions ++
  ["prc", "ec", "phc", "mtl wm", "amy", "parahippocampal", "entorhinal",
   "temporalpole", "amygdala", "ent entorhinal area", "hippocampus",
   "phg parahippocampal gyrus", "tmp temporal pole", "\"erc\"", "\"phc\"",
   "erc"]

/-- `self.ltc_regions`. -/
def ltc_regions : List String :=
  ["middle temporal gyrus", "stg", "mtg", "itg", "inferior temporal gyrus",
   "superior temporal gyrus", "tc", "bankssts", "middletemporal",
   "inferiortemporal", "superiortemporal", "itg inferior temporal gyrus",
   "mtg middle temporal gyrus", "stg superior temporal gyrus"]

/-- `self.temporal_regions` (spreads `mtl_regions` and `ltc_regions`). -/
def temporal_regions : List String :=
  mtl_regions ++ ltc_regions ++
  ["fusiform gyrus wm", "fusiform", "transversetemporal"]

/-- `self.pfc_regions`. -/
def pfc_regions : List String :=
  ["caudal middle frontal cortex", "dlpfc", "precentral gyrus",
   "precentral gyrus", "superior frontal gyrus", "mfg middle frontal gyrus",
   "trifg triangular part of the inferior frontal gyrus",
   "caudalmiddlefrontal", "frontalpole", "lateralorbitofrontal",
   "medialorbitofrontal", "parsopercularis", "parsorbitalis",
   "parstriangularis", "rostralmiddlefrontal", "superiorfrontal"]

/-- `self.cingulate_regions`. -/
def cingulate_regions : List String :=
  ["mcg", "acg", "pcg", "caudalanteriorcingulate", "isthmuscingulate",
   "posteriorcingulate", "rostralanteriorcingulate"]

/-- `self.parietal_regions`. -/
def parietal_regions : List String :=
  ["supramarginal gyrus", "supramarginal gyrus", "inferiorparietal",
   "postcentral", "precuneus", "superiorparietal", "supramarginal"]

/-- `self.other_regions`.  The tenth entry reproduces the source's
adjacent-string-literal artifact: `'inf lat vent' 'cerebral white matter'`
is one merged Python string. -/
def other_regions : List String :=
  ["precentral gyrus", "none", "insula", "precentral gyrus", "nan",
   "misc", "insula", "precentral", "paracentral",
   "inf lat ventcerebral white matter", "lateral ventricle"]

/-- `Locator.Hippocampus`. -/
def Hippocampus (locs : List (Option String)) : List Bool :=
  RegionsF locs (some (StrOrList.list hippocampus_regions))

/-- `Locator.LeftHippocampus`. -/
def LeftHippocampus (locs : List (Option String)) : List Bool :=
  LeftRegionsF locs (StrOrList.list hippocampus_regions)

/-- `Locator.RightHippocampus`. -/
def RightHippocampus (locs : List (Option String)) : List Bool :=
  RightRegionsF locs (StrOrList.list hippocampus_regions)

/-- `Locator.MTL`. -/
def MTL (locs : List (Option String)) : List Bool :=
  RegionsF locs (some (StrOrList.list mtl_regions))

/-- `Locator.LeftMTL`. -/
def LeftMTL (locs : List (Option String)) : List Bool :=
  LeftRegionsF locs (StrOrList.list mtl_regions)

/-- `Locator.RightMTL`. -/
def RightMTL (locs : List (Option String)) : List Bool :=
  RightRegionsF locs (StrOrList.list mtl_regions)

/-- `Locator.LTC`. -/
def LTC (locs : List (Option String)) : List Bool :=
  RegionsF locs (some (StrOrList.list ltc_regions))

/-- `Locator.LeftLTC`. -/
def LeftLTC (locs : List (Option String)) : List Bool :=
  LeftRegionsF locs (StrOrList.list ltc_regions)

/-- `Locator.RightLTC`. -/
def RightLTC (locs : List (Option String)) : List Bool :=
  RightRegionsF locs (StrOrList.list ltc_regions)

/-- `Locator.Temporal`. -/
def Temporal (locs : List (Option String)) : List Bool :=
  RegionsF locs (some (StrOrList.list temporal_regions))

/-- `Locator.LeftTemporal`. -/
def LeftTemporal (locs : List (Option String)) : List Bool :=
  LeftRegionsF locs (StrOrList.list temporal_regions)

/-- `Locator.RightTemporal`. -/
def RightTemporal (locs : List (Option String)) : List Bool :=
  RightRegionsF locs (StrOrList.list temporal_regions)

/-- `Locator.PFC`. -/
def PFC (locs : List (Option String)) : List Bool :=
  RegionsF locs (some (StrOrList.list pfc_regions))

/-- `Locator.LeftPFC`. -/
def LeftPFC (locs : List (Option String)) : List Bool :=
  LeftRegionsF locs (StrOrList.list pfc_regions)

/-- `Locator.RightPFC`. -/
def RightPFC (locs : List (Option String)) : List Bool :=
  RightRegionsF locs (StrOrList.list pfc_regions)

/-- `Locator.Cingulate`. -/
def Cingulate (locs : List (Option String)) : List Bool :=
  RegionsF locs (some (StrOrList.list cingulate_regions))

/-- `Locator.LeftCingulate`. -/
def LeftCingulate (locs : List (Option String)) : List Bool :=
  LeftRegionsF locs (StrOrList.list cingulate_regions)

/-- `Locator.RightCingulate`. -/
def RightCingulate (locs : List (Option String)) : List Bool :=
  RightRegionsF locs (StrOrList.list cingulate_regions)

/-- `Locator.Parietal`. -/
def Parietal (locs : List (Option String)) : List Bool :=
  RegionsF locs (some (StrOrList.list parietal_regions))

/-- `Locator.LeftParietal`. -/
def LeftParietal (locs : List (Option String)) : List Bool :=
  LeftRegionsF locs (StrOrList.list parietal_regions)

/-- `Locator.RightParietal`. -/
def RightParietal (locs : List (Option String)) : List Bool :=
  RightRegionsF locs (StrOrList.list parietal_regions)

/-! ### Helper lemmas about stripping -/

lemma dropWhile_fix_of_append (p : Char → Bool) (m t : List Char)
    (h : (m ++ t).dropWhile p = m ++ t) : m.dropWhile p = m := by
  cases m with
  | nil => rfl
  | cons a m' =>
    rw [List.cons_append, List.dropWhile_cons] at h
    by_cases hp : p a
    · exfalso
      rw [if_pos hp] at h
      have hle := (List.dropWhile_sublist p (l := m' ++ t)).length_le
      have hlen := congrArg List.length h
      simp only [List.length_cons, List.length_append] at hlen hle
      omega
    · rw [List.dropWhile_cons, if_neg hp]

lemma dropWhile_stripChars (l : List Char) :
    (stripChars l).dropWhile Char.isWhitespace = stripChars l := by
  unfold stripChars
  obtain ⟨t, ht⟩ :=
    List.rdropWhile_prefix Char.isWhitespace (l.dropWhile Char.isWhitespace)
  have hid := List.dropWhile_idempotent Char.isWhitespace l
  rw [← ht] at hid
  exact dropWhile_fix_of_append _ _ t hid

lemma stripChars_idem (l : List Char) :
    stripChars (stripChars l) = stripChars l := by
  show List.rdropWhile Char.isWhitespace
      ((stripChars l).dropWhile Char.isWhitespace) = stripChars l
  rw [dropWhile_stripChars]
  show List.rdropWhile Char.isWhitespace
      (List.rdropWhile Char.isWhitespace (l.dropWhile Char.isWhitespace))
      = stripChars l
  rw [List.rdropWhile_idempotent]
  rfl

lemma pyStrip_idem (s : String) : pyStrip (pyStrip s) = pyStrip s := by
  show String.mk (stripChars (stripChars s.data)) = String.mk (stripChars s.data)
  rw [stripChars_idem]

/-! ### Helper lemmas about the resolution loops -/

lemma length_setIfValid (locs : List (Option String)) (c : Cell) (ri : Nat) :
    (setIfValid locs c ri).length = locs.length := by
  cases c with
  | nonstr => rfl
  | str s =>
    simp only [setIfValid]
    split <;> simp

lemma getD_set_lt (l : List (Option String)) (i : Nat) (v : Option String)
    (h : i < l.length) : (l.set i v).getD i none = v := by
  simp [List.getD_eq_getElem?_getD, List.getElem?_set_self h]

lemma getD_setIfValid_ne (locs : List (Option String)) (c : Cell) (ri j : Nat)
    (h : j ≠ ri) : (setIfValid locs c ri).getD j none = locs.getD j none := by
  cases c with
  | nonstr => rfl
  | str s =>
    simp only [setIfValid]
    split
    · rfl
    · simp [List.getD_eq_getElem?_getD, List.getElem?_set_ne (Ne.symm h)]

lemma getD_setIfValid_ne_none (locs : List (Option String)) (c : Cell)
    (ri j : Nat) (h : locs.getD j none ≠ none) :
    (setIfValid locs c ri).getD j none ≠ none := by
  by_cases hj : j = ri
  · subst hj
    cases c with
    | nonstr => exact h
    | str s =>
      simp only [setIfValid]
      split
      · exact h
      · by_cases hlt : j < locs.length
        · rw [getD_set_lt _ _ _ hlt]
          simp
        · exfalso
          apply h
          simp only [List.getD_eq_getElem?_getD]
          rw [List.getElem?_eq_none (by omega)]
          rfl
  · rw [getD_setIfValid_ne _ _ _ _ hj]
    exact h

lemma length_updateColumn (vals : Nat → Cell) (ris : List Nat)
    (locs : List (Option String)) :
    (updateColumn vals ris locs).length = locs.length := by
  induction ris generalizing locs with
  | nil => rfl
  | cons ri rest ih =>
    simp only [updateColumn]
    split
    · exact ih locs
    · rw [ih]
      exact length_setIfValid _ _ _

lemma getD_updateColumn_some (vals : Nat → Cell) (ris : List Nat)
    (locs : List (Option String)) (j : Nat) (v : String)
    (h : locs.getD j none = some v) :
    (updateColumn vals ris locs).getD j none = some v := by
  induction ris generalizing locs with
  | nil => exact h
  | cons ri rest ih =>
    by_cases hcond : (locs.getD ri none).isSome = true
    · simp only [updateColumn, if_pos hcond]
      exact ih locs h
    · simp only [updateColumn, if_neg hcond]
      apply ih
      have hj : j ≠ ri := by
        intro e
        subst e
        rw [h] at hcond
        simp at hcond
      rw [getD_setIfValid_ne _ _ _ _ hj]
      exact h

lemma getD_updateColumn_sets (vals : Nat → Cell) (ris : List Nat)
    (locs : List (Option String)) (i : Nat) (s : String)
    (hmem : i ∈ ris) (hlen : i < locs.length)
    (hnone : locs.getD i none = none)
    (hval : vals i = Cell.str s) (hsent : pyStrip s ∉ sentinelList) :
    (updateColumn vals ris locs).getD i none = some (pyStrip s) := by
  induction ris generalizing locs with
  | nil => cases hmem
  | cons ri rest ih =>
    by_cases hri : ri = i
    · subst hri
      have hcond : ¬((locs.getD ri none).isSome = true) := by
        rw [hnone]
        simp
      simp only [updateColumn, if_neg hcond]
      have hset : setIfValid locs (vals ri) ri
          = locs.set ri (some (pyStrip s)) := by
        rw [hval]
        simp only [setIfValid, if_neg hsent]
      rw [hset]
      exact getD_updateColumn_some _ _ _ _ _ (getD_set_lt _ _ _ hlen)
    · have hmem' : i ∈ rest := by
        rcases List.mem_cons.mp hmem with h | h
        · exact absurd h.symm hri
        · exact h
      by_cases hcond : (locs.getD ri none).isSome = true
      · simp only [updateColumn, if_pos hcond]
        exact ih locs hmem' hlen hnone
      · simp only [updateColumn, if_neg hcond]
        have hine : i ≠ ri := fun e => hri e.symm
        exact ih _ hmem' (by rw [length_setIfValid]; exact hlen)
          (by rw [getD_setIfValid_ne _ _ _ _ hine]; exact hnone)

lemma length_updateLocations (pairs : PairsTable) (col : String)
    (locs : List (Option String)) :
    (updateLocations pairs col locs).length = locs.length := by
  cases hcol : pairs.cols.lookup col with
  | none => simp only [updateLocations, hcol]
  | some vals =>
    simp only [updateLocations, hcol]
    exact length_updateColumn _ _ _

lemma getD_updateLocations_some (pairs : PairsTable) (col : String)
    (locs : List (Option String)) (j : Nat) (v : String)
    (h : locs.getD j none = some v) :
    (updateLocations pairs col locs).getD j none = some v := by
  cases hcol : pairs.cols.lookup col with
  | none => simp only [updateLocations, hcol]; exact h
  | some vals =>
    simp only [updateLocations, hcol]
    exact getD_updateColumn_some _ _ _ _ _ h

lemma length_colocAux (whbr : List (String × String)) (labels : Nat → Cell)
    (ris : List Nat) (locs : List (Option String)) :
    (colocAux whbr labels ris locs).length = locs.length := by
  induction ris generalizing locs with
  | nil => rfl
  | cons ri rest ih =>
    simp only [colocAux]
    split
    · exact ih locs
    · split
      · rfl
      · split
        · exact ih locs
        · split
          · rfl
          · split
            · exact ih locs
            · split
              · rw [ih, length_setIfValid]
              · exact ih locs

lemma getD_colocAux_some (whbr : List (String × String)) (labels : Nat → Cell)
    (ris : List Nat) (locs : List (Option String)) (j : Nat) (v : String)
    (h : locs.getD j none = some v) :
    (colocAux whbr labels ris locs).getD j none = some v := by
  induction ris generalizing locs with
  | nil => exact h
  | cons ri rest ih =>
    simp only [colocAux]
    split
    · exact ih locs h
    · next hcond =>
      have hj : j ≠ ri := by
        intro e
        subst e
        rw [h] at hcond
        simp at hcond
      split
      · exact h
      · split
        · exact ih locs h
        · split
          · exact h
          · split
            · exact ih locs h
            · split
              · exact ih _ (by rw [getD_setIfValid_ne _ _ _ _ hj]; exact h)
              · exact ih locs h

lemma getD_colocAux_notmem (whbr : List (String × String)) (labels : Nat → Cell)
    (ris : List Nat) (locs : List (Option String)) (j : Nat)
    (hnot : ∀ r ∈ ris, r ≠ j) :
    (colocAux whbr labels ris locs).getD j none = locs.getD j none := by
  induction ris generalizing locs with
  | nil => rfl
  | cons ri rest ih =>
    have hrij : ri ≠ j := hnot ri (List.mem_cons_self _ _)
    have hrest : ∀ r ∈ rest, r ≠ j := fun r hr => hnot r (List.mem_cons_of_mem _ hr)
    simp only [colocAux]
    split
    · exact ih locs hrest
    · split
      · rfl
      · split
        · exact ih locs hrest
        · split
          · rfl
          · split
            · exact ih locs hrest
            · split
              · rw [ih _ hrest, getD_setIfValid_ne _ _ _ _ (Ne.symm hrij)]
              · exact ih locs hrest

/-- The condition on one loop row that rules out an exception there: either
the row is already resolved (`continue`), or its label is a string whose
first component fails the key test (short-circuit) or which has a second
component for `spl[1]` to read. -/
def stepOk (whbr : List (String × String)) (labels : Nat → Cell)
    (locs : List (Option String)) (ri : Nat) : Prop :=
  locs.getD ri none ≠ none ∨
    ∃ s, labels ri = Cell.str s ∧
      (lookupW whbr ((pySplit s '-').headD "") = none ∨
        ((pySplit s '-').get? 1).isSome = true)

lemma stepOk_setIfValid (whbr : List (String × String)) (labels : Nat → Cell)
    (locs : List (Option String)) (c : Cell) (rj ri : Nat)
    (h : stepOk whbr labels locs ri) :
    stepOk whbr labels (setIfValid locs c rj) ri := by
  rcases h with h | h
  · exact Or.inl (getD_setIfValid_ne_none _ _ _ _ h)
  · exact Or.inr h

lemma colocAux_append (whbr : List (String × String)) (labels : Nat → Cell)
    (l₁ l₂ : List Nat) (locs : List (Option String))
    (hok : ∀ r ∈ l₁, stepOk whbr labels locs r) :
    colocAux whbr labels (l₁ ++ l₂) locs
      = colocAux whbr labels l₂ (colocAux whbr labels l₁ locs) := by
  induction l₁ generalizing locs with
  | nil => rfl
  | cons ri rest ih =>
    have hok_ri := hok ri (List.mem_cons_self _ _)
    have hok_rest : ∀ r ∈ rest, stepOk whbr labels locs r :=
      fun r hr => hok r (List.mem_cons_of_mem _ hr)
    rw [List.cons_append]
    simp only [colocAux]
    split
    · exact ih locs hok_rest
    · next hcond =>
      have hnone : locs.getD ri none = none := by
        cases hv : locs.getD ri none with
        | none => rfl
        | some w => rw [hv] at hcond; simp at hcond
      split
      · next heq =>
        exfalso
        rcases hok_ri with hne | ⟨s, hs, _⟩
        · exact hne hnone
        · rw [heq] at hs
          cases hs
      · next lbl heq =>
        split
        · exact ih locs hok_rest
        · next ra hla =>
          split
          · next hg =>
            exfalso
            rcases hok_ri with hne | ⟨s, hs, hdisj⟩
            · exact hne hnone
            · rw [heq] at hs
              cases hs
              rcases hdisj with hl | hr
              · rw [hla] at hl
                exact Option.some_ne_none _ hl
              · rw [hg] at hr
                simp at hr
          · split
            · exact ih locs hok_rest
            · split
              · exact ih _
                  (fun r hr => stepOk_setIfValid _ _ _ _ _ _ (hok_rest r hr))
              · exact ih locs hok_rest

lemma getD_colocStep_some (pairs : PairsTable)
    (loc? : Option (List (String × String))) (locs : List (Option String))
    (j : Nat) (v : String) (h : locs.getD j none = some v) :
    (colocStep pairs loc? locs).getD j none = some v := by
  cases loc? with
  | none => exact h
  | some whbr =>
    simp only [colocStep]
    split
    · exact getD_colocAux_some _ _ _ _ _ _ h
    · exact h

lemma length_colocStep (pairs : PairsTable)
    (loc? : Option (List (String × String))) (locs : List (Option String)) :
    (colocStep pairs loc? locs).length = locs.length := by
  cases loc? with
  | none => rfl
  | some whbr =>
    simp only [colocStep]
    split
    · exact length_colocAux _ _ _ _
    · rfl

lemma getD_map_pyStrip (l : List (Option String)) (j : Nat) :
    (l.map (fun s => Option.map pyStrip s)).getD j none
      = Option.map pyStrip (l.getD j none) := by
  simp only [List.getD_eq_getElem?_getD, List.getElem?_map]
  cases l[j]? with
  | none => rfl
  | some o => rfl

/-- The locations array after the two tabular sources and before
co-localization (the value of `locations` at line 109 of the source). -/
def afterTabular (pairs : PairsTable) : List (Option String) :=
  updateLocations pairs "das.region"
    (updateLocations pairs "stein.region"
      (List.replicate pairs.n (none : Option String)))

lemma loadLocations_eq (pairs : PairsTable)
    (loc? : Option (List (String × String))) :
    loadLocations pairs loc? =
      (updateLocations pairs "ind.region"
        (updateLocations pairs "mni.region"
          (colocStep pairs loc? (afterTabular pairs)))).map
        (fun s => Option.map pyStrip s) := rfl

lemma length_afterTabular (pairs : PairsTable) :
    (afterTabular pairs).length = pairs.n := by
  unfold afterTabular
  rw [length_updateLocations, length_updateLocations, List.length_replicate]

lemma length_loadLocations (pairs : PairsTable)
    (loc? : Option (List (String × String))) :
    (loadLocations pairs loc?).length = pairs.n := by
  rw [loadLocations_eq, List.length_map, length_updateLocations,
    length_updateLocations, length_colocStep, length_afterTabular]

/-! ### Helper lemmas about matching -/

lemma length_matchingList (locs : List (Option String)) (rs : List String) :
    (matchingList locs rs).length = locs.length := by
  unfold matchingList
  exact List.length_map _ _

lemma matchingList_getD_iff (locs : List (Option String)) (rs : List String)
    (i : Nat) (hi : i < locs.length) :
    ((matchingList locs rs).getD i false = true ↔
      ∃ s, locs.getD i none = some s ∧
        ∃ a ∈ rs, pyStrip (pyLower s) = pyStrip (pyLower a)) := by
  unfold matchingList
  rw [List.getD_eq_getElem?_getD, List.getElem?_map,
    List.getElem?_eq_getElem hi, List.getD_eq_getElem?_getD,
    List.getElem?_eq_getElem hi]
  simp only [Option.map_some', Option.getD_some]
  cases h : locs[i] with
  | none => simp
  | some s =>
    constructor
    · intro hc
      obtain ⟨b, hb, hbeq⟩ := List.contains_iff_exists_mem_beq.mp hc
      obtain ⟨a, ha, rfl⟩ := List.mem_map.mp hb
      exact ⟨s, rfl, a, ha, by simpa using hbeq⟩
    · rintro ⟨s', hs', a, ha, he⟩
      injection hs' with hss
      subst hss
      exact List.contains_iff_exists_mem_beq.mpr
        ⟨pyStrip (pyLower a), List.mem_map.mpr ⟨a, ha, rfl⟩, by simp [he]⟩

lemma matchingList_getD_of_ge (locs : List (Option String)) (rs : List String)
    (i : Nat) (hi : locs.length ≤ i) :
    (matchingList locs rs).getD i false = false := by
  rw [List.getD_eq_getElem?_getD, List.getElem?_eq_none]
  · rfl
  · rw [length_matchingList]
    exact hi

lemma matchingList_mono (locs : List (Option String)) (rs rs' : List String)
    (hsub : rs ⊆ rs') (i : Nat)
    (h : (matchingList locs rs).getD i false = true) :
    (matchingList locs rs').getD i false = true := by
  by_cases hi : i < locs.length
  · rw [matchingList_getD_iff _ _ _ hi] at h ⊢
    obtain ⟨s, hs, a, ha, he⟩ := h
    exact ⟨s, hs, a, hsub ha, he⟩
  · rw [matchingList_getD_of_ge _ _ _ (by omega)] at h
    simp at h

lemma bothsides_subset {rs rs' : List String} (h : rs ⊆ rs') :
    (rs ++ rs.map (fun s => "Left " ++ s) ++ rs.map (fun s => "Right " ++ s)) ⊆
    (rs' ++ rs'.map (fun s => "Left " ++ s)
      ++ rs'.map (fun s => "Right " ++ s)) := by
  intro x hx
  simp only [List.mem_append, List.mem_map] at hx ⊢
  rcases hx with (hx | ⟨a, ha, rfl⟩) | ⟨a, ha, rfl⟩
  · exact Or.inl (Or.inl (h hx))
  · exact Or.inl (Or.inr ⟨a, h ha, rfl⟩)
  · exact Or.inr ⟨a, h ha, rfl⟩

lemma hip_subset_mtl : hippocampus_regions ⊆ mtl_regions := by
  intro x hx
  simp only [mtl_regions, List.mem_append]
  exact Or.inl hx

lemma mtl_subset_temporal : mtl_regions ⊆ temporal_regions := by
  intro x hx
  simp only [temporal_regions, List.mem_append]
  exact Or.inl (Or.inl hx)

lemma ltc_subset_temporal : ltc_regions ⊆ temporal_regions := by
  intro x hx
  simp only [temporal_regions, List.mem_append]
  exact Or.inl (Or.inr hx)

lemma length_Matching (locs : List (Option String)) (arg : StrOrList) :
    (Matching locs arg).length = locs.length :=
  length_matchingList _ _

lemma length_RegionsF (locs : List (Option String)) (rs : Option StrOrList) :
    (RegionsF locs rs).length = locs.length := by
  cases rs with
  | none => exact List.length_map _ _
  | some arg => exact length_matchingList _ _

lemma length_LeftRegionsF (locs : List (Option String)) (arg : StrOrList) :
    (LeftRegionsF locs arg).length = locs.length :=
  length_matchingList _ _

lemma length_RightRegionsF (locs : List (Option String)) (arg : StrOrList) :
    (RightRegionsF locs arg).length = locs.length :=
  length_matchingList _ _

lemma regions_mask_mono (locs : List (Option String)) (rs rs' : List String)
    (hsub : rs ⊆ rs') (i : Nat)
    (h : (RegionsF locs (some (StrOrList.list rs))).getD i false = true) :
    (RegionsF locs (some (StrOrList.list rs'))).getD i false = true :=
  matchingList_mono locs _ _ (bothsides_subset hsub) i h

lemma left_mask_mono (locs : List (Option String)) (rs rs' : List String)
    (hsub : rs ⊆ rs') (i : Nat)
    (h : (LeftRegionsF locs (StrOrList.list rs)).getD i false = true) :
    (LeftRegionsF locs (StrOrList.list rs')).getD i false = true :=
  matchingList_mono locs _ _ (List.map_subset _ hsub) i h

lemma right_mask_mono (locs : List (Option String)) (rs rs' : List String)
    (hsub : rs ⊆ rs') (i : Nat)
    (h : (RightRegionsF locs (StrOrList.list rs)).getD i false = true) :
    (RightRegionsF locs (StrOrList.list rs')).getD i false = true :=
  matchingList_mono locs _ _ (List.map_subset _ hsub) i h

lemma colocAux_cons_assign (whbr : List (String × String)) (labels : Nat → Cell)
    (ri : Nat) (rest : List Nat) (locs : List (Option String))
    (lbl a b r : String)
    (hnone : locs.getD ri none = none)
    (hlab : labels ri = Cell.str lbl)
    (hspl : pySplit lbl '-' = [a, b])
    (ha : lookupW whbr a = some r)
    (hb : lookupW whbr b = some r) :
    colocAux whbr labels (ri :: rest) locs
      = colocAux whbr labels rest (setIfValid locs (Cell.str r) ri) := by
  simp only [colocAux]
  split
  · next hcond =>
    rw [hnone] at hcond
    simp at hcond
  · split
    · next heq =>
      rw [hlab] at heq
      cases heq
    · next lbl' heq =>
      rw [hlab] at heq
      injection heq with he
      subst he
      split
      · next hla =>
        rw [hspl] at hla
        simp only [List.headD_cons] at hla
        rw [ha] at hla
        cases hla
      · next ra hla =>
        rw [hspl] at hla
        simp only [List.headD_cons] at hla
        rw [ha] at hla
        injection hla with hra
        subst hra
        split
        · next hg =>
          rw [hspl] at hg
          simp at hg
        · next b' hg =>
          rw [hspl] at hg
          simp only [List.get?_cons_succ, List.get?_cons_zero] at hg
          injection hg with hbb
          subst hbb
          split
          · next hlb =>
            rw [hb] at hlb
            cases hlb
          · next rb hlb =>
            rw [hb] at hlb
            injection hlb with hrb
            subst hrb
            rw [if_pos rfl]

/-! ### Claim theorems -/

/-- C1: first-source-wins priority.  If the `stein.region` column is
present and holds a valid (string, non-sentinel after trimming) value at
row `i`, then the resolved location at `i` is that value trimmed,
regardless of the other columns and of the whole-brain map; and more
generally a location already set is never overwritten by a later column
pass nor by the co-localization step. -/
theorem c1_first_source_wins :
    (∀ (pairs : PairsTable) (loc? : Option (List (String × String)))
        (i : Nat) (vals : Nat → Cell) (s : String),
      pairs.cols.lookup "stein.region" = some vals →
      vals i = Cell.str s →
      pyStrip s ∉ sentinelList →
      i < pairs.n →
      (loadLocations pairs loc?).getD i none = some (pyStrip s)) ∧
    (∀ (pairs : PairsTable) (col : String) (locs : List (Option String))
        (i : Nat) (v : String),
      locs.getD i none = some v →
      (updateLocations pairs col locs).getD i none = some v) ∧
    (∀ (pairs : PairsTable) (loc? : Option (List (String × String)))
        (locs : List (Option String)) (i : Nat) (v : String),
      locs.getD i none = some v →
      (colocStep pairs loc? locs).getD i none = some v) := by
  refine ⟨?_, getD_updateLocations_some, getD_colocStep_some⟩
  intro pairs loc? i vals s hcol hval hsent hi
  rw [loadLocations_eq, getD_map_pyStrip]
  have h0len : (List.replicate pairs.n (none : Option String)).length = pairs.n :=
    List.length_replicate _ _
  have h0 : (List.replicate pairs.n (none : Option String)).getD i none
      = none := by
    rw [List.getD_eq_getElem?_getD, List.getElem?_replicate]
    split <;> rfl
  have h1 : (updateLocations pairs "stein.region"
      (List.replicate pairs.n none)).getD i none = some (pyStrip s) := by
    simp only [updateLocations, hcol]
    exact getD_updateColumn_sets _ _ _ _ _ (List.mem_range.mpr hi)
      (by rw [h0len]; exact hi) h0 hval hsent
  have h2 : (afterTabular pairs).getD i none = some (pyStrip s) :=
    getD_updateLocations_some pairs "das.region" _ i _ h1
  have h3 := getD_colocStep_some pairs loc? _ i _ h2
  have h4 := getD_updateLocations_some pairs "mni.region" _ i _ h3
  have h5 := getD_updateLocations_some pairs "ind.region" _ i _ h4
  rw [h5]
  simp [pyStrip_idem]

/-- Concrete table for the `c1_first_source_wins` witness: one pair whose
`stein.region` cell is `" CA1 "` while `das.region` says `"insula"`. -/
def c1pairs : PairsTable where
  n := 1
  cols := [("stein.region", fun _ => Cell.str " CA1 "),
           ("das.region", fun _ => Cell.str "insula")]
  labelLen := 1
  label := fun _ => Cell.nonstr

/-- Witness for C1 at a concrete table: the `stein.region` value wins. -/
theorem c1_first_source_wins_witness :
    (loadLocations c1pairs none).getD 0 none = some "CA1" := by
  have h := c1_first_source_wins.1 c1pairs none 0
      (fun _ => Cell.str " CA1 ") " CA1 " rfl rfl (by decide) (by decide)
  have e : pyStrip " CA1 " = "CA1" := by decide
  rw [e] at h
  exact h

/-- C2: sentinel rejection.  `SetIfValid` ignores non-string candidates,
ignores string candidates exactly when their trimmed form is one of
`unknown`, `misc`, `None`, `nan`, `""`, and stores every other candidate
trimmed with original case preserved. -/
theorem c2_sentinel_rejection :
    (∀ (locs : List (Option String)) (ri : Nat),
      setIfValid locs Cell.nonstr ri = locs) ∧
    (∀ (locs : List (Option String)) (ri : Nat) (s : String),
      pyStrip s ∈ sentinelList → setIfValid locs (Cell.str s) ri = locs) ∧
    (∀ (locs : List (Option String)) (ri : Nat) (s : String),
      pyStrip s ∉ sentinelList →
        setIfValid locs (Cell.str s) ri = locs.set ri (some (pyStrip s))) := by
  refine ⟨fun locs ri => rfl, fun locs ri s h => ?_, fun locs ri s h => ?_⟩
  · simp only [setIfValid, if_pos h]
  · simp only [setIfValid, if_neg h]

/-- Witness for C2: a non-string cell, the sentinel `" misc "`, and the
accepted value `" CA1 "` at a concrete one-row state. -/
theorem c2_sentinel_rejection_witness :
    setIfValid [none] Cell.nonstr 0 = [none] ∧
    setIfValid [none] (Cell.str " misc ") 0 = [none] ∧
    setIfValid [none] (Cell.str " CA1 ") 0 = [some "CA1"] := by
  refine ⟨c2_sentinel_rejection.1 [none] 0,
    c2_sentinel_rejection.2.1 [none] 0 " misc " (by decide), ?_⟩
  have h := c2_sentinel_rejection.2.2 [none] 0 " CA1 " (by decide)
  have e : pyStrip " CA1 " = "CA1" := by decide
  rw [e] at h
  simpa using h

/-- Table refuting C3 as stated: pair 0 has label `"A1"` (whose single
split component is a key of the map, so evaluating `spl[1]` raises), pair
1 has label `"A1-A2"`; only `mni.region` exists, saying `"Y"` at row 1. -/
def c3pairs : PairsTable where
  n := 2
  cols := [("mni.region", fun i => if i = 1 then Cell.str "Y" else Cell.nonstr)]
  labelLen := 2
  label := fun i => if i = 0 then Cell.str "A1" else Cell.str "A1-A2"

/-- Whole-brain map used by the C3 counterexample and witness. -/
def c3whbr : List (String × String) := [("A1", "X"), ("A2", "X")]

/-- Counterexample to C3 as stated: pair 1 is still unresolved after the
tabular steps, its label splits into two contact names that are both keys
of the whole-brain map with the identical valid region `"X"`, yet its
resolved location is `"Y"`: the loop hit the malformed label of pair 0
first, the bare `except` ended the whole step, and `mni.region` won. -/
theorem c3_counterexample :
    (afterTabular c3pairs).getD 1 none = none ∧
    c3pairs.label 1 = Cell.str "A1-A2" ∧
    pySplit "A1-A2" '-' = ["A1", "A2"] ∧
    lookupW c3whbr "A1" = some "X" ∧
    lookupW c3whbr "A2" = some "X" ∧
    pyStrip "X" ∉ sentinelList ∧
    (loadLocations c3pairs (some c3whbr)).getD 1 none = some "Y" ∧
    (loadLocations c3pairs (some c3whbr)).getD 1 none ≠ some "X" := by
  decide

/-- C3 (amended): the co-localization conclusion holds provided the label
column length matches and the loop reaches pair `i` without raising, i.e.
every earlier still-unresolved pair's label is a string that either has a
first component missing from the map or splits into at least two
components.  Then a pair whose label splits into two keys of the map with
identical valid region gets that shared region (trimmed) as its resolved
location. -/
theorem c3_colocalization (pairs : PairsTable) (whbr : List (String × String))
    (i : Nat) (lbl a b r : String)
    (hi : i < pairs.n)
    (hlen : pairs.labelLen = pairs.n)
    (hreach : ∀ j, j < i → (afterTabular pairs).getD j none = none →
      ∃ s, pairs.label j = Cell.str s ∧
        (lookupW whbr ((pySplit s '-').headD "") = none ∨
          ((pySplit s '-').get? 1).isSome = true))
    (hnone : (afterTabular pairs).getD i none = none)
    (hlab : pairs.label i = Cell.str lbl)
    (hspl : pySplit lbl '-' = [a, b])
    (ha : lookupW whbr a = some r)
    (hb : lookupW whbr b = some r)
    (hsent : pyStrip r ∉ sentinelList) :
    (loadLocations pairs (some whbr)).getD i none = some (pyStrip r) := by
  rw [loadLocations_eq, getD_map_pyStrip]
  set L := afterTabular pairs with hL
  have hLlen : L.length = pairs.n := length_afterTabular pairs
  have hstep : colocStep pairs (some whbr) L
      = colocAux whbr pairs.label (List.range pairs.n) L := by
    simp only [colocStep, if_pos hlen]
  have hrange : List.range' 0 i ++ List.range' i (pairs.n - i)
      = List.range' 0 pairs.n := by
    have h := List.range'_append_1 0 i (pairs.n - i)
    rw [Nat.zero_add] at h
    rw [h]
    congr 1
    omega
  have hok : ∀ rr ∈ List.range' 0 i, stepOk whbr pairs.label L rr := by
    intro rr hrr
    have hrlt : rr < i := by
      obtain ⟨k, hk, hk2⟩ := List.mem_range'.mp hrr
      omega
    by_cases hcase : L.getD rr none = none
    · exact Or.inr (hreach rr hrlt hcase)
    · exact Or.inl hcase
  have happend := colocAux_append whbr pairs.label (List.range' 0 i)
      (List.range' i (pairs.n - i)) L hok
  set M := colocAux whbr pairs.label (List.range' 0 i) L with hM
  have hMi : M.getD i none = none := by
    rw [hM, getD_colocAux_notmem]
    · exact hnone
    · intro rr hrr
      obtain ⟨k, hk, hk2⟩ := List.mem_range'.mp hrr
      omega
  have hMlen : M.length = pairs.n := by
    rw [hM, length_colocAux, hLlen]
  have hsplit2 : List.range' i (pairs.n - i)
      = i :: List.range' (i + 1) (pairs.n - i - 1) := by
    have he : pairs.n - i = (pairs.n - i - 1) + 1 := by omega
    conv_lhs => rw [he]
    rw [List.range'_succ]
  have heq1 : colocAux whbr pairs.label (List.range pairs.n) L
      = colocAux whbr pairs.label (List.range' i (pairs.n - i)) M := by
    rw [List.range_eq_range', ← hrange]
    exact happend
  have heq2 : colocAux whbr pairs.label (List.range' i (pairs.n - i)) M
      = colocAux whbr pairs.label (List.range' (i + 1) (pairs.n - i - 1))
          (setIfValid M (Cell.str r) i) := by
    rw [hsplit2]
    exact colocAux_cons_assign whbr pairs.label i _ M lbl a b r hMi hlab
      hspl ha hb
  have hset : setIfValid M (Cell.str r) i = M.set i (some (pyStrip r)) := by
    simp only [setIfValid, if_neg hsent]
  have hupd : (M.set i (some (pyStrip r))).getD i none = some (pyStrip r) :=
    getD_set_lt _ _ _ (by rw [hMlen]; exact hi)
  have hcs : (colocStep pairs (some whbr) L).getD i none = some (pyStrip r) := by
    rw [hstep, heq1, heq2, hset]
    exact getD_colocAux_some _ _ _ _ _ _ hupd
  have h4 := getD_updateLocations_some pairs "mni.region" _ i _ hcs
  have h5 := getD_updateLocations_some pairs "ind.region" _ i _ h4
  rw [h5]
  simp [pyStrip_idem]

/-- Table for the C3 witness: a single pair labelled `"A1-A2"`, no region
columns at all. -/
def c3wpairs : PairsTable where
  n := 1
  cols := []
  labelLen := 1
  label := fun _ => Cell.str "A1-A2"

/-- Witness for the amended C3: with `A1 → X` and `A2 → X` in the map, the
single pair `"A1-A2"` resolves to `"X"`. -/
theorem c3_colocalization_witness :
    (loadLocations c3wpairs (some c3whbr)).getD 0 none = some "X" := by
  have h := c3_colocalization c3wpairs c3whbr 0 "A1-A2" "A1" "A2" "X"
      (by decide) (by decide) (fun j hj _ => absurd hj (Nat.not_lt_zero j))
      (by decide) rfl (by decide) rfl rfl (by decide)
  have e : pyStrip "X" = "X" := by decide
  rw [e] at h
  exact h

lemma colocAux_abort_nonstr (whbr : List (String × String))
    (labels : Nat → Cell) (ri : Nat) (rest : List Nat)
    (locs : List (Option String))
    (hnone : locs.getD ri none = none) (hlab : labels ri = Cell.nonstr) :
    colocAux whbr labels (ri :: rest) locs = locs := by
  simp only [colocAux]
  split
  · next hcond =>
    rw [hnone] at hcond
    simp at hcond
  · split
    · rfl
    · next lbl heq =>
      rw [hlab] at heq
      cases heq

lemma colocAux_abort_malformed (whbr : List (String × String))
    (labels : Nat → Cell) (ri : Nat) (rest : List Nat)
    (locs : List (Option String)) (lbl : String)
    (hnone : locs.getD ri none = none) (hlab : labels ri = Cell.str lbl)
    (hkey : (lookupW whbr ((pySplit lbl '-').headD "")).isSome = true)
    (hone : (pySplit lbl '-').get? 1 = none) :
    colocAux whbr labels (ri :: rest) locs = locs := by
  simp only [colocAux]
  split
  · next hcond =>
    rw [hnone] at hcond
    simp at hcond
  · split
    · next heq =>
      simp [hlab] at heq
    · next lbl' heq =>
      rw [hlab] at heq
      injection heq with he
      subst he
      split
      · next hla =>
        rw [hla] at hkey
        simp at hkey
      · next ra hla =>
        split
        · rfl
        · next b hg =>
          rw [hone] at hg
          cases hg

lemma getD_colocAux_none_back (whbr : List (String × String))
    (labels : Nat → Cell) (ris : List Nat) (locs : List (Option String))
    (j : Nat) (h : (colocAux whbr labels ris locs).getD j none = none) :
    locs.getD j none = none := by
  cases hv : locs.getD j none with
  | none => rfl
  | some v =>
    rw [getD_colocAux_some _ _ _ _ _ _ hv] at h
    cases h

/-- Table refuting C4 as stated: pair 0 is a well-formed colocalizable
pair, pair 1 has the malformed label `"A1"` whose sole component is a key
of the map, so `spl[1]` raises there. -/
def c4pairs : PairsTable where
  n := 2
  cols := []
  labelLen := 2
  label := fun i => if i = 0 then Cell.str "A1-A2" else Cell.str "A1"

/-- Whole-brain map used by the C4 counterexample and witness. -/
def c4whbr : List (String × String) := [("A1", "X"), ("A2", "X")]

/-- Counterexample to C4 as stated: a failure does occur during the
co-localization step (pair 1's label has no `-` and its sole component is
a map key, so `spl[1]` raises), yet the step does NOT contribute nothing:
pair 0 had already been assigned `"X"` before the exception ended the
loop, and that assignment survives. -/
theorem c4_counterexample :
    c4pairs.label 1 = Cell.str "A1" ∧
    pySplit "A1" '-' = ["A1"] ∧
    (lookupW c4whbr "A1").isSome = true ∧
    (afterTabular c4pairs).getD 1 none = none ∧
    loadLocations c4pairs (some c4whbr) = [some "X", none] ∧
    loadLocations c4pairs (some c4whbr) ≠ List.replicate c4pairs.n none := by
  decide

/-- C4 (amended): no co-localization failure surfaces an error (every
branch of the embedded step is total and returns a locations array); a
failure before the per-pair loop — missing/malformed localization
structure, or a label-column length mismatch — leaves the array completely
untouched; a failure raised at a pair inside the loop (non-string label,
or a label whose split has no second component while its first is a map
key) stops the remainder of the step but keeps assignments already made at
earlier pairs; and any pair still absent after the step was absent before
it, so it remains eligible for the later `mni.region`/`ind.region`
passes. -/
theorem c4_silent_failure :
    (∀ (pairs : PairsTable) (locs : List (Option String)),
      colocStep pairs none locs = locs) ∧
    (∀ (pairs : PairsTable) (whbr : List (String × String))
        (locs : List (Option String)),
      pairs.labelLen ≠ pairs.n → colocStep pairs (some whbr) locs = locs) ∧
    (∀ (whbr : List (String × String)) (labels : Nat → Cell) (ri : Nat)
        (rest : List Nat) (locs : List (Option String)),
      locs.getD ri none = none → labels ri = Cell.nonstr →
        colocAux whbr labels (ri :: rest) locs = locs) ∧
    (∀ (whbr : List (String × String)) (labels : Nat → Cell) (ri : Nat)
        (rest : List Nat) (locs : List (Option String)) (lbl : String),
      locs.getD ri none = none → labels ri = Cell.str lbl →
      (lookupW whbr ((pySplit lbl '-').headD "")).isSome = true →
      (pySplit lbl '-').get? 1 = none →
        colocAux whbr labels (ri :: rest) locs = locs) ∧
    (∀ (whbr : List (String × String)) (labels : Nat → Cell) (ris : List Nat)
        (locs : List (Option String)) (j : Nat),
      (colocAux whbr labels ris locs).getD j none = none →
        locs.getD j none = none) := by
  refine ⟨fun pairs locs => rfl, fun pairs whbr locs h => ?_,
    colocAux_abort_nonstr, colocAux_abort_malformed, getD_colocAux_none_back⟩
  simp only [colocStep, if_neg h]

/-- Table for the C4 witness: one pair, but a label column reporting two
entries (length mismatch). -/
def c4wpairs : PairsTable where
  n := 1
  cols := []
  labelLen := 2
  label := fun _ => Cell.str "A1"

/-- Witness for the amended C4 at concrete inputs: missing localization,
length mismatch, non-string-label abort, malformed-label abort, and
absence propagating backwards through the step. -/
theorem c4_silent_failure_witness :
    colocStep c4wpairs none [none] = [none] ∧
    colocStep c4wpairs (some c4whbr) [none] = [none] ∧
    colocAux c4whbr (fun _ => Cell.nonstr) [0] [none] = [none] ∧
    colocAux c4whbr (fun _ => Cell.str "A1") [0] [none] = [none] ∧
    ([(none : Option String)]).getD 0 none = none := by
  refine ⟨c4_silent_failure.1 c4wpairs [none],
    c4_silent_failure.2.1 c4wpairs c4whbr [none] (by decide),
    c4_silent_failure.2.2.1 c4whbr (fun _ => Cell.nonstr) 0 [] [none]
      (by decide) rfl,
    c4_silent_failure.2.2.2.1 c4whbr (fun _ => Cell.str "A1") 0 [] [none] "A1"
      (by decide) rfl (by decide) (by decide),
    c4_silent_failure.2.2.2.2 c4whbr (fun _ => Cell.str "A1") [0] [none] 0
      (by decide)⟩

/-- C5: matching semantics.  For an in-range index, `Matching` is true at
`i` exactly when the resolved location there is a string whose
lowercased-and-trimmed form equals the lowercased-and-trimmed form of some
input alias (a bare string argument acting as a one-element collection);
an absent location gives `false`, and matching is exact equality after
normalization, never substring or regex. -/
theorem c5_matching (locs : List (Option String)) (arg : StrOrList) (i : Nat)
    (hi : i < locs.length) :
    (Matching locs arg).getD i false = true ↔
      ∃ s, locs.getD i none = some s ∧
        ∃ a ∈ argToList arg, pyStrip (pyLower s) = pyStrip (pyLower a) :=
  matchingList_getD_iff locs (argToList arg) i hi

/-- Witness for C5: a one-element location list matching a bare-string
argument case/whitespace-insensitively. -/
theorem c5_matching_witness :
    (Matching [some " CA1 "] (StrOrList.str "ca1")).getD 0 false = true :=
  (c5_matching [some " CA1 "] (StrOrList.str "ca1") 0 (by decide)).mpr
    ⟨" CA1 ", by decide, "ca1", by decide, by decide⟩

/-- C6: `Regions` semantics.  For a present argument, `Regions` equals
`Matching` on the expanded alias set (each alias, its `"Left "`-prefixed
and its `"Right "`-prefixed form); `Regions(None)` is the all-true mask of
length `N`. -/
theorem c6_regions :
    (∀ (locs : List (Option String)) (rs : List String),
      RegionsF locs (some (StrOrList.list rs)) =
        Matching locs (StrOrList.list (rs ++ rs.map (fun s => "Left " ++ s)
          ++ rs.map (fun s => "Right " ++ s)))) ∧
    (∀ (locs : List (Option String)) (s : String),
      RegionsF locs (some (StrOrList.str s)) =
        Matching locs (StrOrList.list
          ([s] ++ ["Left " ++ s] ++ ["Right " ++ s]))) ∧
    (∀ locs : List (Option String),
      RegionsF locs none = List.replicate locs.length true) := by
  refine ⟨fun locs rs => rfl, fun locs s => rfl, fun locs => ?_⟩
  show locs.map (fun _ => true) = List.replicate locs.length true
  exact List.map_const' _ _

/-- C7: side-exclusive masks.  `LeftRegions`/`RightRegions` equal
`Matching` on only the prefixed aliases; in particular
`LeftRegions(["Hippocampus"])` is true at `i` only when the location there
normalizes to `"left hippocampus"`, and is false on locations normalizing
to `"hippocampus"` or `"right hippocampus"`. -/
theorem c7_side_exclusive :
    (∀ (locs : List (Option String)) (arg : StrOrList),
      LeftRegionsF locs arg = Matching locs
        (StrOrList.list ((argToList arg).map (fun s => "Left " ++ s)))) ∧
    (∀ (locs : List (Option String)) (arg : StrOrList),
      RightRegionsF locs arg = Matching locs
        (StrOrList.list ((argToList arg).map (fun s => "Right " ++ s)))) ∧
    (∀ (locs : List (Option String)) (i : Nat),
      (LeftRegionsF locs (StrOrList.list ["Hippocampus"])).getD i false
          = true →
        ∃ s, locs.getD i none = some s ∧
          pyStrip (pyLower s) = "left hippocampus") ∧
    (∀ (locs : List (Option String)) (i : Nat) (s : String),
      i < locs.length → locs.getD i none = some s →
      (pyStrip (pyLower s) = "hippocampus" ∨
        pyStrip (pyLower s) = "right hippocampus") →
      (LeftRegionsF locs (StrOrList.list ["Hippocampus"])).getD i false
        = false) := by
  refine ⟨fun locs arg => rfl, fun locs arg => rfl, ?_, ?_⟩
  · intro locs i h
    by_cases hi : i < locs.length
    · obtain ⟨s, hs, a, ha, he⟩ := (matchingList_getD_iff locs
        (["Hippocampus"].map (fun s => "Left " ++ s)) i hi).mp h
      obtain ⟨x, hx, rfl⟩ := List.mem_map.mp ha
      obtain rfl := List.mem_singleton.mp hx
      refine ⟨s, hs, ?_⟩
      rw [he]
      decide
    · have h' : (matchingList locs
          (["Hippocampus"].map (fun s => "Left " ++ s))).getD i false
          = true := h
      rw [matchingList_getD_of_ge locs _ i (by omega)] at h'
      cases h'
  · intro locs i s hi hs hor
    cases hval : (LeftRegionsF locs (StrOrList.list ["Hippocampus"])).getD
        i false with
    | false => rfl
    | true =>
      exfalso
      obtain ⟨s', hs', a, ha, he⟩ := (matchingList_getD_iff locs
        (["Hippocampus"].map (fun s => "Left " ++ s)) i hi).mp hval
      rw [hs] at hs'
      injection hs' with he2
      subst he2
      obtain ⟨x, hx, rfl⟩ := List.mem_map.mp ha
      obtain rfl := List.mem_singleton.mp hx
      rcases hor with h1 | h1 <;> rw [h1] at he
      · exact absurd he (by decide)
      · exact absurd he (by decide)

/-- Witness for C7: a left-prefixed location matches case-insensitively;
a right-prefixed location does not match the left mask. -/
theorem c7_side_exclusive_witness :
    (∃ s, ([some " LEFT hippocampus "] : List (Option String)).getD 0 none
        = some s ∧ pyStrip (pyLower s) = "left hippocampus") ∧
    (LeftRegionsF [some "Right Hippocampus"]
      (StrOrList.list ["Hippocampus"])).getD 0 false = false := by
  refine ⟨c7_side_exclusive.2.2.1 [some " LEFT hippocampus "] 0 (by decide),
    c7_side_exclusive.2.2.2 [some "Right Hippocampus"] 0 "Right Hippocampus"
      (by decide) (by decide) (Or.inr (by decide))⟩

/-- C8: length and order invariant.  Over an `N`-row table the resolved
array has length `N`, every query returns exactly `N` elements, and `All`
preserves the per-pair order. -/
theorem c8_lengths (pairs : PairsTable)
    (loc? : Option (List (String × String))) (arg : StrOrList)
    (rs : Option StrOrList) (i : Nat) :
    (loadLocations pairs loc?).length = pairs.n ∧
    (All (loadLocations pairs loc?)).length = pairs.n ∧
    (Matching (loadLocations pairs loc?) arg).length = pairs.n ∧
    (RegionsF (loadLocations pairs loc?) rs).length = pairs.n ∧
    (LeftRegionsF (loadLocations pairs loc?) arg).length = pairs.n ∧
    (RightRegionsF (loadLocations pairs loc?) arg).length = pairs.n ∧
    (Hippocampus (loadLocations pairs loc?)).length = pairs.n ∧
    (LeftHippocampus (loadLocations pairs loc?)).length = pairs.n ∧
    (RightHippocampus (loadLocations pairs loc?)).length = pairs.n ∧
    (MTL (loadLocations pairs loc?)).length = pairs.n ∧
    (LeftMTL (loadLocations pairs loc?)).length = pairs.n ∧
    (RightMTL (loadLocations pairs loc?)).length = pairs.n ∧
    (LTC (loadLocations pairs loc?)).length = pairs.n ∧
    (LeftLTC (loadLocations pairs loc?)).length = pairs.n ∧
    (RightLTC (loadLocations pairs loc?)).length = pairs.n ∧
    (Temporal (loadLocations pairs loc?)).length = pairs.n ∧
    (LeftTemporal (loadLocations pairs loc?)).length = pairs.n ∧
    (RightTemporal (loadLocations pairs loc?)).length = pairs.n ∧
    (PFC (loadLocations pairs loc?)).length = pairs.n ∧
    (LeftPFC (loadLocations pairs loc?)).length = pairs.n ∧
    (RightPFC (loadLocations pairs loc?)).length = pairs.n ∧
    (Cingulate (loadLocations pairs loc?)).length = pairs.n ∧
    (LeftCingulate (loadLocations pairs loc?)).length = pairs.n ∧
    (RightCingulate (loadLocations pairs loc?)).length = pairs.n ∧
    (Parietal (loadLocations pairs loc?)).length = pairs.n ∧
    (LeftParietal (loadLocations pairs loc?)).length = pairs.n ∧
    (RightParietal (loadLocations pairs loc?)).length = pairs.n ∧
    (All (loadLocations pairs loc?))[i]? = (loadLocations pairs loc?)[i]? := by
  have hl := length_loadLocations pairs loc?
  refine ⟨hl, (List.length_map _ _).trans hl, (length_Matching _ _).trans hl,
    (length_RegionsF _ _).trans hl, (length_LeftRegionsF _ _).trans hl,
    (length_RightRegionsF _ _).trans hl,
    (length_RegionsF _ _).trans hl, (length_LeftRegionsF _ _).trans hl,
    (length_RightRegionsF _ _).trans hl,
    (length_RegionsF _ _).trans hl, (length_LeftRegionsF _ _).trans hl,
    (length_RightRegionsF _ _).trans hl,
    (length_RegionsF _ _).trans hl, (length_LeftRegionsF _ _).trans hl,
    (length_RightRegionsF _ _).trans hl,
    (length_RegionsF _ _).trans hl, (length_LeftRegionsF _ _).trans hl,
    (length_RightRegionsF _ _).trans hl,
    (length_RegionsF _ _).trans hl, (length_LeftRegionsF _ _).trans hl,
    (length_RightRegionsF _ _).trans hl,
    (length_RegionsF _ _).trans hl, (length_LeftRegionsF _ _).trans hl,
    (length_RightRegionsF _ _).trans hl,
    (length_RegionsF _ _).trans hl, (length_LeftRegionsF _ _).trans hl,
    (length_RightRegionsF _ _).trans hl, ?_⟩
  show ((loadLocations pairs loc?).map (fun s => s))[i]?
      = (loadLocations pairs loc?)[i]?
  rw [List.getElem?_map]
  cases (loadLocations pairs loc?)[i]? <;> rfl

/-- C9: taxonomy superset invariant.  Every hippocampus alias is an MTL
alias and a temporal alias, and every MTL or LTC alias is a temporal
alias. -/
theorem c9_taxonomy (a : String) :
    (a ∈ hippocampus_regions → a ∈ mtl_regions ∧ a ∈ temporal_regions) ∧
    (a ∈ mtl_regions ∨ a ∈ ltc_regions → a ∈ temporal_regions) := by
  constructor
  · intro h
    exact ⟨hip_subset_mtl h, mtl_subset_temporal (hip_subset_mtl h)⟩
  · intro h
    exact h.elim (fun h1 => mtl_subset_temporal h1)
      (fun h1 => ltc_subset_temporal h1)

/-- Witness for C9 at the concrete aliases `"CA1"` and `"stg"`. -/
theorem c9_taxonomy_witness :
    ("CA1" ∈ mtl_regions ∧ "CA1" ∈ temporal_regions) ∧
    "stg" ∈ temporal_regions :=
  ⟨(c9_taxonomy "CA1").1 (by decide),
    (c9_taxonomy "stg").2 (Or.inr (by decide))⟩

/-- C10: pointwise mask monotonicity.  Wherever the hippocampus mask is
true, the MTL and temporal masks are true; wherever the LTC or MTL mask is
true, the temporal mask is true; likewise for the Left- and
Right-prefixed accessors. -/
theorem c10_mask_monotone (locs : List (Option String)) (i : Nat) :
    ((Hippocampus locs).getD i false = true →
      (MTL locs).getD i false = true ∧ (Temporal locs).getD i false = true) ∧
    ((LTC locs).getD i false = true ∨ (MTL locs).getD i false = true →
      (Temporal locs).getD i false = true) ∧
    ((LeftHippocampus locs).getD i false = true →
      (LeftMTL locs).getD i false = true ∧
        (LeftTemporal locs).getD i false = true) ∧
    ((LeftLTC locs).getD i false = true ∨
        (LeftMTL locs).getD i false = true →
      (LeftTemporal locs).getD i false = true) ∧
    ((RightHippocampus locs).getD i false = true →
      (RightMTL locs).getD i false = true ∧
        (RightTemporal locs).getD i false = true) ∧
    ((RightLTC locs).getD i false = true ∨
        (RightMTL locs).getD i false = true →
      (RightTemporal locs).getD i false = true) := by
  have hipt : hippocampus_regions ⊆ temporal_regions :=
    fun x hx => mtl_subset_temporal (hip_subset_mtl hx)
  refine ⟨fun h => ⟨regions_mask_mono locs _ _ hip_subset_mtl i h,
      regions_mask_mono locs _ _ hipt i h⟩,
    fun h => h.elim (regions_mask_mono locs _ _ ltc_subset_temporal i)
      (regions_mask_mono locs _ _ mtl_subset_temporal i),
    fun h => ⟨left_mask_mono locs _ _ hip_subset_mtl i h,
      left_mask_mono locs _ _ hipt i h⟩,
    fun h => h.elim (left_mask_mono locs _ _ ltc_subset_temporal i)
      (left_mask_mono locs _ _ mtl_subset_temporal i),
    fun h => ⟨right_mask_mono locs _ _ hip_subset_mtl i h,
      right_mask_mono locs _ _ hipt i h⟩,
    fun h => h.elim (right_mask_mono locs _ _ ltc_subset_temporal i)
      (right_mask_mono locs _ _ mtl_subset_temporal i)⟩

/-- Witness for C10 at concrete masks: a `"CA1"` pair is MTL and temporal,
and a `"Left stg"` pair is left-temporal. -/
theorem c10_mask_monotone_witness :
    ((MTL [some "CA1"]).getD 0 false = true ∧
      (Temporal [some "CA1"]).getD 0 false = true) ∧
    (LeftTemporal [some "Left stg"]).getD 0 false = true :=
  ⟨(c10_mask_monotone [some "CA1"] 0).1 (by decide),
    (c10_mask_monotone [some "Left stg"] 0).2.2.2.1 (Or.inl (by decide))⟩

end Locator
